import Mathlib

/-!
Verification of the packer entry point (src/packer.go) and the amazon
chroot builder, against the repository's natural-language specification.

The entry point `main` is embedded as a function from its external
inputs (environment variables, the results of the fallible operations it
performs, the argument vector) to the trace of observable events it
produces, ending in the `os.Exit` call that terminates the process.
-/

namespace Packer

/-- The literal flag scanned for by `extractMachineReadable` in
src/packer.go. -/
def machineReadableFlag : String := "-machine-readable"

/-- Embedding of `extractMachineReadable` (src/packer.go lines 123-135):
scan the arguments; at the first occurrence of the flag, return the
arguments with that element sliced out and `true`; otherwise return the
arguments unchanged and `false`. -/
def extractMachineReadable : List String → List String × Bool
  | [] => ([], false)
  | arg :: rest =>
    if arg = machineReadableFlag then (rest, true)
    else
      let r := extractMachineReadable rest
      (arg :: r.1, r.2)

/-- Destination chosen for the log output in `main` (lines 20-37):
`ioutil.Discard`, `os.Stderr`, or a file created at a path. -/
inductive LogDest
  | discard
  | stderr
  | file (path : String)
deriving DecidableEq

/-- The distinct error messages `main` writes to stderr before exiting. -/
inductive ErrMsg
  | logOpen
  | loadConfig
  | cacheDir
  | envInit
  | cliError
deriving DecidableEq

/-- A writer a UI can be attached to. -/
inductive Writer
  | stdout
  | stderr
deriving DecidableEq

/-- The UI configured on the environment: the default UI, or a
`MachineReadableUi` attached to a writer (lines 94-98). -/
inductive UiConfig
  | default
  | machineReadable (w : Writer)
deriving DecidableEq

/-- Result of `env.Cli(args)` (line 109): an exit code, or an error. -/
inductive CliResult
  | ok (code : Int)
  | err
deriving DecidableEq

/-- An observable event of a run of `main`. -/
inductive Event
  | setLogOutput (d : LogDest)
  | stderrErr (m : ErrMsg)
  | setUi (u : UiConfig)
  | cleanupClients
  | cliInvoke (args : List String)
  | exitProcess (code : Int)
deriving DecidableEq

/-- The external inputs `main` depends on: the two logging environment
variables, and the success/failure of each fallible operation it
performs, in program order. -/
structure MainInput where
  packerLog : String
  packerLogPath : String
  createLogOk : Bool
  loadConfigOk : Bool
  absOk : Bool
  mkdirOk : Bool
  argv : List String
  newEnvOk : Bool
  cliResult : CliResult

/-- Trace of `main` from `packer.NewEnvironment` (line 100) on, given
the arguments left after machine-readable extraction.  On an
environment-initialization error: stderr message, explicit
`plugin.CleanupClients()`, `os.Exit(1)` (lines 101-105).  Otherwise
`env.Cli(args)` runs; on error: stderr message, cleanup, exit 1
(lines 110-114); on success: cleanup, exit with the returned code
(lines 116-117). -/
def afterEnvConfig (i : MainInput) (args : List String) : List Event :=
  if i.newEnvOk = false then
    [Event.stderrErr ErrMsg.envInit, Event.cleanupClients, Event.exitProcess 1]
  else
    Event.cliInvoke args ::
      (match i.cliResult with
       | CliResult.err =>
         [Event.stderrErr ErrMsg.cliError, Event.cleanupClients,
          Event.exitProcess 1]
       | CliResult.ok code => [Event.cleanupClients, Event.exitProcess code])

/-- Trace of `main` after the log destination `d` has been chosen
(lines 37-98): `loadConfig` failure exits 1 (lines 52-56), cache
directory preparation failure (`filepath.Abs` or `os.MkdirAll`) exits 1
(lines 65-74), otherwise machine-readable extraction runs, the UI is
configured accordingly, and the run continues.  The
`defer plugin.CleanupClients()` registered at line 83 never fires:
every subsequent termination goes through `os.Exit`, which skips
deferred calls, so only the explicit cleanup calls appear in traces. -/
def afterLogging (i : MainInput) (d : LogDest) : List Event :=
  Event.setLogOutput d ::
    (if i.loadConfigOk = false then
      [Event.stderrErr ErrMsg.loadConfig, Event.exitProcess 1]
     else if i.absOk = false then
      [Event.stderrErr ErrMsg.cacheDir, Event.exitProcess 1]
     else if i.mkdirOk = false then
      [Event.stderrErr ErrMsg.cacheDir, Event.exitProcess 1]
     else
      let em := extractMachineReadable i.argv
      Event.setUi
          (if em.2 then UiConfig.machineReadable Writer.stdout
           else UiConfig.default) ::
        afterEnvConfig i em.1)

/-- Trace of `main` (src/packer.go lines 17-118).  Logging setup
(lines 20-37): with `PACKER_LOG` unset or empty the log output is
`ioutil.Discard`; otherwise stderr, unless `PACKER_LOG_PATH` names a
file, in which case `os.Create` of that file is used and a creation
failure writes to stderr and exits 1. -/
def mainRun (i : MainInput) : List Event :=
  if i.packerLog = "" then afterLogging i LogDest.discard
  else if i.packerLogPath = "" then afterLogging i LogDest.stderr
  else if i.createLogOk = true then afterLogging i (LogDest.file i.packerLogPath)
  else [Event.stderrErr ErrMsg.logOpen, Event.exitProcess 1]

/-- The logging setup completes without terminating the process. -/
def loggingOk (i : MainInput) : Prop :=
  i.packerLog = "" ∨ i.packerLogPath = "" ∨ i.createLogOk = true

instance (i : MainInput) : Decidable (loggingOk i) := by
  unfold loggingOk; infer_instance

/-- The run reaches the construction of the environment configuration
(line 86): logging setup, `loadConfig`, and cache-directory preparation
all succeeded. -/
def reachesEnvConstruction (i : MainInput) : Prop :=
  loggingOk i ∧ i.loadConfigOk = true ∧ i.absOk = true ∧ i.mkdirOk = true

instance (i : MainInput) : Decidable (reachesEnvConstruction i) := by
  unfold reachesEnvConstruction; infer_instance

theorem mainRun_of_loggingOk (i : MainInput) (h : loggingOk i) :
    ∃ d, mainRun i = afterLogging i d := by
  unfold mainRun
  by_cases h1 : i.packerLog = ""
  · exact ⟨LogDest.discard, by simp [h1]⟩
  · by_cases h2 : i.packerLogPath = ""
    · exact ⟨LogDest.stderr, by simp [h1, h2]⟩
    · have h3 : i.createLogOk = true := by
        rcases h with h | h | h
        · exact absurd h h1
        · exact absurd h h2
        · exact h
      exact ⟨LogDest.file i.packerLogPath, by simp [h1, h2, h3]⟩

theorem extractMachineReadable_eq_erase (args : List String) :
    extractMachineReadable args =
      (args.erase machineReadableFlag, decide (machineReadableFlag ∈ args)) := by
  induction args with
  | nil => rfl
  | cons a rest ih =>
    by_cases h : a = machineReadableFlag
    · subst h
      simp [extractMachineReadable, List.erase_cons]
    · simp [extractMachineReadable, List.erase_cons, h, ih, List.mem_cons,
        Ne.symm h]

/-- A concrete run: no logging requested, configuration and cache
preparation succeed, machine-readable flag present, environment and CLI
succeed with exit code 0. -/
def sampleInput : MainInput :=
  { packerLog := "", packerLogPath := "", createLogOk := true,
    loadConfigOk := true, absOk := true, mkdirOk := true,
    argv := ["build", "-machine-readable", "tmpl.json"],
    newEnvOk := true, cliResult := CliResult.ok 0 }

/-- A concrete run in which `loadConfig` fails. -/
def sampleBadConfigInput : MainInput :=
  { sampleInput with loadConfigOk := false }

/-- C1: on every termination path of `main` after the environment begins
to be constructed — normal completion, environment-initialization error,
and CLI-execution error — `plugin.CleanupClients` is invoked before the
process exits: every such trace ends with a `cleanupClients` event
immediately followed by the terminating `exitProcess` event. -/
theorem main_cleanup_before_exit (i : MainInput)
    (h : reachesEnvConstruction i) :
    ∃ p c, mainRun i = p ++ [Event.cleanupClients, Event.exitProcess c] := by
  obtain ⟨hl, h2, h3, h4⟩ := h
  obtain ⟨d, hd⟩ := mainRun_of_loggingOk i hl
  rw [hd]
  unfold afterLogging afterEnvConfig
  cases he : i.newEnvOk with
  | false =>
    exact ⟨[Event.setLogOutput d,
      Event.setUi
        (if (extractMachineReadable i.argv).2 then
          UiConfig.machineReadable Writer.stdout else UiConfig.default),
      Event.stderrErr ErrMsg.envInit], 1, by simp [h2, h3, h4, he]⟩
  | true =>
    cases hc : i.cliResult with
    | err =>
      exact ⟨[Event.setLogOutput d,
        Event.setUi
          (if (extractMachineReadable i.argv).2 then
            UiConfig.machineReadable Writer.stdout else UiConfig.default),
        Event.cliInvoke (extractMachineReadable i.argv).1,
        Event.stderrErr ErrMsg.cliError], 1, by simp [h2, h3, h4, he, hc]⟩
    | ok code =>
      exact ⟨[Event.setLogOutput d,
        Event.setUi
          (if (extractMachineReadable i.argv).2 then
            UiConfig.machineReadable Writer.stdout else UiConfig.default),
        Event.cliInvoke (extractMachineReadable i.argv).1],
        code, by simp [h2, h3, h4, he, hc]⟩

theorem main_cleanup_before_exit_witness :
    ∃ p c,
      mainRun sampleInput = p ++ [Event.cleanupClients, Event.exitProcess c] :=
  main_cleanup_before_exit sampleInput (by decide)

/-- C3: when `env.Cli(args)` returns without error, the process exits
with exactly the returned code (after cleanup); when it returns an
error, the process prints the error to stderr and exits with code 1,
after invoking plugin cleanup. -/
theorem main_cli_exit_behavior (i : MainInput)
    (h : reachesEnvConstruction i) (he : i.newEnvOk = true) :
    (∀ c, i.cliResult = CliResult.ok c →
      ∃ p, mainRun i = p ++ [Event.cleanupClients, Event.exitProcess c]) ∧
    (i.cliResult = CliResult.err →
      ∃ p, mainRun i = p ++ [Event.stderrErr ErrMsg.cliError,
        Event.cleanupClients, Event.exitProcess 1]) := by
  obtain ⟨hl, h2, h3, h4⟩ := h
  obtain ⟨d, hd⟩ := mainRun_of_loggingOk i hl
  constructor
  · intro c hc
    refine ⟨[Event.setLogOutput d,
      Event.setUi
        (if (extractMachineReadable i.argv).2 then
          UiConfig.machineReadable Writer.stdout else UiConfig.default),
      Event.cliInvoke (extractMachineReadable i.argv).1], ?_⟩
    rw [hd]
    unfold afterLogging afterEnvConfig
    simp [h2, h3, h4, he, hc]
  · intro hc
    refine ⟨[Event.setLogOutput d,
      Event.setUi
        (if (extractMachineReadable i.argv).2 then
          UiConfig.machineReadable Writer.stdout else UiConfig.default),
      Event.cliInvoke (extractMachineReadable i.argv).1], ?_⟩
    rw [hd]
    unfold afterLogging afterEnvConfig
    simp [h2, h3, h4, he, hc]

theorem main_cli_exit_behavior_witness :
    ∃ p,
      mainRun sampleInput = p ++ [Event.cleanupClients, Event.exitProcess 0] :=
  (main_cli_exit_behavior sampleInput (by decide) rfl).1 0 rfl

/-- C4: when loading the configuration fails, or preparing the cache
directory fails, `main` writes an error to stderr and exits with code 1
without dispatching any command (no CLI invocation appears in the
trace). -/
theorem main_config_error_paths (i : MainInput) (hl : loggingOk i) :
    (i.loadConfigOk = false →
      (∃ d, mainRun i =
        [Event.setLogOutput d, Event.stderrErr ErrMsg.loadConfig,
         Event.exitProcess 1]) ∧
      ∀ args, Event.cliInvoke args ∉ mainRun i) ∧
    (i.loadConfigOk = true → (i.absOk = false ∨ i.mkdirOk = false) →
      (∃ d, mainRun i =
        [Event.setLogOutput d, Event.stderrErr ErrMsg.cacheDir,
         Event.exitProcess 1]) ∧
      ∀ args, Event.cliInvoke args ∉ mainRun i) := by
  obtain ⟨d, hd⟩ := mainRun_of_loggingOk i hl
  constructor
  · intro h1
    have ht : mainRun i =
        [Event.setLogOutput d, Event.stderrErr ErrMsg.loadConfig,
         Event.exitProcess 1] := by
      rw [hd]; unfold afterLogging; simp [h1]
    exact ⟨⟨d, ht⟩, fun args => by simp [ht]⟩
  · intro h1 h2
    have ht : mainRun i =
        [Event.setLogOutput d, Event.stderrErr ErrMsg.cacheDir,
         Event.exitProcess 1] := by
      rw [hd]; unfold afterLogging
      rcases h2 with h2 | h2 <;> simp [h1, h2]
    exact ⟨⟨d, ht⟩, fun args => by simp [ht]⟩

theorem main_config_error_paths_witness :
    (∃ d, mainRun sampleBadConfigInput =
      [Event.setLogOutput d, Event.stderrErr ErrMsg.loadConfig,
       Event.exitProcess 1]) ∧
    ∀ args, Event.cliInvoke args ∉ mainRun sampleBadConfigInput :=
  (main_config_error_paths sampleBadConfigInput (by decide)).1 rfl

/-- C5: the machine-readable UI is selected iff `"-machine-readable"`
appears among the arguments; when selected the environment's UI is a
`MachineReadableUi` writing to stdout, and the flag occurrence is
removed from the arguments handed to the dispatcher. -/
theorem main_machine_readable_selection (i : MainInput)
    (h : reachesEnvConstruction i) :
    ((mainRun i)[1]? =
        some (Event.setUi (UiConfig.machineReadable Writer.stdout)) ↔
      machineReadableFlag ∈ i.argv) ∧
    ((mainRun i)[1]? = some (Event.setUi UiConfig.default) ↔
      machineReadableFlag ∉ i.argv) ∧
    (i.newEnvOk = true →
      (mainRun i)[2]? =
        some (Event.cliInvoke (i.argv.erase machineReadableFlag))) := by
  obtain ⟨hl, h2, h3, h4⟩ := h
  obtain ⟨d, hd⟩ := mainRun_of_loggingOk i hl
  have ht : mainRun i =
      Event.setLogOutput d ::
        Event.setUi
          (if machineReadableFlag ∈ i.argv then
            UiConfig.machineReadable Writer.stdout else UiConfig.default) ::
        afterEnvConfig i (i.argv.erase machineReadableFlag) := by
    rw [hd]; unfold afterLogging
    simp [h2, h3, h4, extractMachineReadable_eq_erase]
  by_cases hm : machineReadableFlag ∈ i.argv
  · refine ⟨by simp [ht, hm], by simp [ht, hm], fun he => ?_⟩
    simp [ht, afterEnvConfig, he]
  · refine ⟨by simp [ht, hm], by simp [ht, hm], fun he => ?_⟩
    simp [ht, afterEnvConfig, he]

theorem main_machine_readable_selection_witness :
    (mainRun sampleInput)[1]? =
      some (Event.setUi (UiConfig.machineReadable Writer.stdout)) :=
  (main_machine_readable_selection sampleInput (by decide)).1.mpr (by decide)

/-- C9: `extractMachineReadable` removes exactly the first occurrence of
the flag — the result splits around that occurrence, has length one less
than the input, and preserves the relative order of all other
arguments — reporting `true`; when the flag is absent it returns the
input unchanged with `false`. -/
theorem extractMachineReadable_spec (args : List String) :
    (machineReadableFlag ∈ args →
      (∃ l r, args = l ++ machineReadableFlag :: r ∧
        machineReadableFlag ∉ l ∧
        extractMachineReadable args = (l ++ r, true)) ∧
      (extractMachineReadable args).1.length = args.length - 1) ∧
    (machineReadableFlag ∉ args →
      extractMachineReadable args = (args, false)) := by
  constructor
  · intro hm
    constructor
    · obtain ⟨l, r, hnl, heq, herase⟩ := List.exists_erase_eq hm
      refine ⟨l, r, heq, hnl, ?_⟩
      rw [extractMachineReadable_eq_erase, herase]
      simp [hm]
    · rw [extractMachineReadable_eq_erase]
      simpa using List.length_erase_of_mem hm
  · intro hm
    rw [extractMachineReadable_eq_erase]
    simp [hm, List.erase_of_not_mem hm]

theorem extractMachineReadable_spec_witness :
    extractMachineReadable ["build", "tmpl.json"] =
      (["build", "tmpl.json"], false) :=
  (extractMachineReadable_spec ["build", "tmpl.json"]).2 (by decide)

/-- C10: with `PACKER_LOG` unset or empty, all log output is discarded
and `PACKER_LOG_PATH` is ignored; with `PACKER_LOG` set, log output goes
to stderr unless `PACKER_LOG_PATH` names a file, in which case that file
is created and used, and a creation failure terminates the process with
exit code 1. -/
theorem main_logging_setup (i : MainInput) :
    (i.packerLog = "" →
      ∃ t, mainRun i = Event.setLogOutput LogDest.discard :: t) ∧
    (i.packerLog ≠ "" → i.packerLogPath = "" →
      ∃ t, mainRun i = Event.setLogOutput LogDest.stderr :: t) ∧
    (i.packerLog ≠ "" → i.packerLogPath ≠ "" → i.createLogOk = true →
      ∃ t, mainRun i =
        Event.setLogOutput (LogDest.file i.packerLogPath) :: t) ∧
    (i.packerLog ≠ "" → i.packerLogPath ≠ "" → i.createLogOk = false →
      mainRun i = [Event.stderrErr ErrMsg.logOpen, Event.exitProcess 1]) := by
  refine ⟨fun h1 => ?_, fun h1 h2 => ?_, fun h1 h2 h3 => ?_,
    fun h1 h2 h3 => ?_⟩
  · exact ⟨_, by unfold mainRun afterLogging; rw [if_pos h1]⟩
  · exact ⟨_, by unfold mainRun afterLogging; rw [if_neg h1, if_pos h2]⟩
  · exact ⟨_, by unfold mainRun afterLogging; rw [if_neg h1, if_neg h2, if_pos h3]⟩
  · unfold mainRun
    rw [if_neg h1, if_neg h2]
    simp [h3]

theorem main_logging_setup_witness :
    ∃ t, mainRun sampleInput = Event.setLogOutput LogDest.discard :: t :=
  (main_logging_setup sampleInput).1 rfl

end Packer

namespace Packer.Plugin

/-- Modelled from the spec: a client tracked by the `plugin` package
(whose body is not under src/).  A client owns one subprocess; `alive`
records whether that subprocess is still live, and `killReportsError`
whether killing it reports an error, which the spec says is logged, not
escalated. -/
structure ManagedClient where
  alive : Bool
  killReportsError : Bool
deriving DecidableEq

/-- Modelled from the spec: `Kill` terminates the subprocess if it is
live, reporting any kill error for logging only; on an already-dead
client it does nothing and reports nothing, making `Kill` idempotent and
leaving no live subprocess either way. -/
def Kill (c : ManagedClient) : ManagedClient × Option String :=
  if c.alive then
    ({ c with alive := false },
     if c.killReportsError then some "kill error" else none)
  else (c, none)

/-- Modelled from the spec: the set of clients tracked for cleanup. -/
structure PluginSet where
  managed : List ManagedClient
deriving DecidableEq

/-- Modelled from the spec: `plugin.CleanupClients` iterates the tracked
set and calls `Kill` on each client, tolerating (not failing on)
individual kill errors: errors are collected for the log and nothing is
returned to the caller. -/
def cleanupList : List ManagedClient → List ManagedClient × List String
  | [] => ([], [])
  | c :: rest =>
    ((Kill c).1 :: (cleanupList rest).1,
     ((Kill c).2.toList) ++ (cleanupList rest).2)

/-- Modelled from the spec: `plugin.CleanupClients`, acting on the
tracked set and producing the kill-error log. -/
def CleanupClients (s : PluginSet) : PluginSet × List String :=
  (⟨(cleanupList s.managed).1⟩, (cleanupList s.managed).2)

theorem Kill_kill (c : ManagedClient) :
    (Kill c).1.alive = false ∧ Kill (Kill c).1 = ((Kill c).1, none) := by
  unfold Kill
  by_cases h : c.alive = true
  · simp [h]
  · simp at h
    simp [h]

theorem cleanupList_idem (l : List ManagedClient) :
    (∀ c ∈ (cleanupList l).1, c.alive = false) ∧
    cleanupList (cleanupList l).1 = ((cleanupList l).1, []) := by
  induction l with
  | nil => exact ⟨by simp [cleanupList], rfl⟩
  | cons c rest ih =>
    obtain ⟨ih1, ih2⟩ := ih
    refine ⟨?_, ?_⟩
    · intro x hx
      simp only [cleanupList, List.mem_cons] at hx
      rcases hx with rfl | hx
      · exact (Kill_kill c).1
      · exact ih1 x hx
    · show cleanupList ((Kill c).1 :: (cleanupList rest).1) = _
      simp only [cleanupList, (Kill_kill c).2, ih2]
      simp

/-- C2: `plugin.CleanupClients` is idempotent: after one invocation no
tracked subprocess is live, and a second invocation (as from a deferred
or interrupt path racing normal completion) leaves the state unchanged
and reports no error at all, so there is no double-free hazard. -/
theorem cleanupClients_idempotent (s : PluginSet) :
    (∀ c ∈ (CleanupClients s).1.managed, c.alive = false) ∧
    CleanupClients (CleanupClients s).1 = ((CleanupClients s).1, []) := by
  obtain ⟨l⟩ := s
  obtain ⟨h1, h2⟩ := cleanupList_idem l
  refine ⟨h1, ?_⟩
  simp only [CleanupClients, h2]

/-- A concrete tracked set: two live clients (one whose kill reports an
error) and one already-dead client. -/
def samplePluginSet : PluginSet :=
  ⟨[⟨true, false⟩, ⟨true, true⟩, ⟨false, false⟩]⟩

theorem cleanupClients_idempotent_witness :
    (⟨false, false⟩ : ManagedClient).alive = false ∧
    CleanupClients (CleanupClients samplePluginSet).1 =
      ((CleanupClients samplePluginSet).1, []) :=
  ⟨(cleanupClients_idempotent samplePluginSet).1 ⟨false, false⟩ (by decide),
   (cleanupClients_idempotent samplePluginSet).2⟩

end Packer.Plugin

namespace Packer.Chroot

/-- A loosely-typed configuration value, as carried by the
`map[string]interface{}` configurations the tests build
(src/builder/amazon/chroot/builder_test.go). -/
inductive Value
  | str (s : String)
  | strListList (l : List (List String))
  | null
  | int (n : Int)
deriving DecidableEq

/-- A raw configuration: string keys bound to loosely-typed values. -/
abbrev RawConfig := List (String × Value)

/-- First binding of a key in a raw configuration. -/
def lookupKey (raw : RawConfig) (k : String) : Option Value :=
  match raw with
  | [] => none
  | (k2, v) :: rest => if k2 = k then some v else lookupKey rest k

/-- A sub-error of the aggregated report `Prepare` returns. -/
inductive PrepError
  | wrongType (key : String)
  | amiNameMissing
  | amiNameTemplate
  | sourceAmiMissing
  | chrootMountShape (entry : List String)
deriving DecidableEq

/-- The opening template-delimiter character. -/
def openBrace : Char := Char.ofNat 123

/-- The closing template-delimiter character. -/
def closeBrace : Char := Char.ofNat 125

/-- Modelled from the spec: `ami_name` is processed as a template, and a
malformed template fails to parse.  The scanner tracks whether a
template action opened by a double open-delimiter is pending; a pending
action at the end of the input (as in the test input, which opens an
action and never closes it) is malformed. -/
def tmplScan : Bool → List Char → Bool
  | inAction, [] => !inAction
  | inAction, [_] => !inAction
  | inAction, a :: b :: rest =>
    if inAction = false ∧ a = openBrace ∧ b = openBrace then
      tmplScan true rest
    else if inAction = true ∧ a = closeBrace ∧ b = closeBrace then
      tmplScan false rest
    else tmplScan inAction (b :: rest)

/-- A string parses as a template. -/
def templateOk (s : String) : Bool := tmplScan false s.data

/-- Modelled from the spec: decoding a string-typed field of the raw
configuration.  A missing or null binding leaves the field at its zero
value (the empty string) with no error; a binding of another type is a
type error, accumulated into the report. -/
def decodeStr (raw : RawConfig) (k : String) : String × List PrepError :=
  match lookupKey raw k with
  | none => ("", [])
  | some (Value.str s) => (s, [])
  | some Value.null => ("", [])
  | some _ => ("", [PrepError.wrongType k])

/-- Modelled from the spec: decoding the `chroot_mounts` field, a list
of string lists.  Missing or null yields the empty list; a binding of
another type is a type error, accumulated into the report. -/
def decodeMounts (raw : RawConfig) : List (List String) × List PrepError :=
  match lookupKey raw "chroot_mounts" with
  | none => ([], [])
  | some Value.null => ([], [])
  | some (Value.strListList l) => (l, [])
  | some _ => ([], [PrepError.wrongType "chroot_mounts"])

/-- The decoded builder configuration. -/
structure Config where
  amiName : String
  sourceAmi : String
  chrootMounts : List (List String)

/-- Modelled from the spec: decode the raw configuration into the
builder configuration, accumulating every type error. -/
def decodeConfig (raw : RawConfig) : Config × List PrepError :=
  (⟨(decodeStr raw "ami_name").1, (decodeStr raw "source_ami").1,
    (decodeMounts raw).1⟩,
   (decodeStr raw "ami_name").2 ++ (decodeStr raw "source_ami").2 ++
     (decodeMounts raw).2)

/-- Modelled from the spec: Prepare-time validation of the decoded
configuration, accumulating one sub-error per problem: `ami_name` must
be present and a well-formed template, `source_ami` must be nonempty,
and each `chroot_mounts` entry must have the mount shape (filesystem
type, device, mount point: three elements — the tests pin only that a
one-element entry is rejected). -/
def validate (c : Config) : List PrepError :=
  (if c.amiName = "" then [PrepError.amiNameMissing]
   else if templateOk c.amiName = true then []
   else [PrepError.amiNameTemplate]) ++
  (if c.sourceAmi = "" then [PrepError.sourceAmiMissing] else []) ++
  c.chrootMounts.filterMap fun m =>
    if m.length = 3 then none else some (PrepError.chrootMountShape m)

/-- Modelled from the spec: `Builder.Prepare` of the amazon chroot
builder (its body is not under src/, only its tests): decode the raw
configuration, validate, and return the aggregated report — empty for
success, otherwise one MultiError-style list with a distinct sub-error
per problem. -/
def Prepare (raw : RawConfig) : List PrepError :=
  (decodeConfig raw).2 ++ validate (decodeConfig raw).1

theorem validate_eq_nil (c : Config) :
    validate c = [] ↔
      (c.amiName ≠ "" ∧ templateOk c.amiName = true ∧ c.sourceAmi ≠ "" ∧
        ∀ m ∈ c.chrootMounts, m.length = 3) := by
  unfold validate
  rw [List.append_eq_nil, List.append_eq_nil, List.filterMap_eq_nil_iff]
  constructor
  · rintro ⟨⟨h1, h2⟩, h3⟩
    have hmount : ∀ m ∈ c.chrootMounts, m.length = 3 := by
      intro m hm
      have h4 := h3 m hm
      by_contra hlen
      simp [hlen] at h4
    have hsrc : c.sourceAmi ≠ "" := by
      intro hs
      rw [if_pos hs] at h2
      simp at h2
    have hami : c.amiName ≠ "" ∧ templateOk c.amiName = true := by
      by_cases ha : c.amiName = ""
      · rw [if_pos ha] at h1
        simp at h1
      · refine ⟨ha, ?_⟩
        by_cases hb : templateOk c.amiName = true
        · exact hb
        · rw [if_neg ha, if_neg hb] at h1
          simp at h1
    exact ⟨hami.1, hami.2, hsrc, hmount⟩
  · rintro ⟨h1, h2, h3, h4⟩
    refine ⟨⟨?_, ?_⟩, ?_⟩
    · rw [if_neg h1, if_pos h2]
    · rw [if_neg h3]
    · intro m hm
      rw [if_pos (h4 m hm)]

/-- C6: assuming the raw configuration decodes without type errors,
`Prepare` returns the empty (nil) report precisely when `ami_name` is
present and a well-formed template, `source_ami` is nonempty, and every
`chroot_mounts` entry has the mount shape; equivalently, a missing
`ami_name`, a malformed `ami_name` template, an empty `source_ami`, or a
wrongly-shaped `chroot_mounts` entry each force a non-nil error. -/
theorem prepare_field_validation (raw : RawConfig)
    (hd : (decodeConfig raw).2 = []) :
    Prepare raw = [] ↔
      ((decodeConfig raw).1.amiName ≠ "" ∧
        templateOk (decodeConfig raw).1.amiName = true ∧
        (decodeConfig raw).1.sourceAmi ≠ "" ∧
        ∀ m ∈ (decodeConfig raw).1.chrootMounts, m.length = 3) := by
  unfold Prepare
  rw [hd, List.nil_append]
  exact validate_eq_nil (decodeConfig raw).1

/-- The configuration the tests call `testConfig()`. -/
def testRawConfig : RawConfig :=
  [("ami_name", Value.str "foo"), ("source_ami", Value.str "foo")]

theorem prepare_field_validation_witness :
    Prepare testRawConfig = [] :=
  (prepare_field_validation testRawConfig (by decide)).mpr (by decide)

/-- C7: a configuration with two distinct problems — the required
`ami_name` missing, and `chroot_mounts` bound to a value of the wrong
type — yields one aggregated report containing a distinct sub-error for
each problem, not a fail-fast single error. -/
theorem prepare_accumulates_errors (raw : RawConfig)
    (h1 : lookupKey raw "ami_name" = none)
    (h2 : ∃ s, lookupKey raw "chroot_mounts" = some (Value.str s)) :
    PrepError.amiNameMissing ∈ Prepare raw ∧
    PrepError.wrongType "chroot_mounts" ∈ Prepare raw ∧
    PrepError.amiNameMissing ≠ PrepError.wrongType "chroot_mounts" := by
  obtain ⟨s, hs⟩ := h2
  have hami : decodeStr raw "ami_name" = ("", []) := by
    unfold decodeStr; rw [h1]
  have hmounts :
      decodeMounts raw = ([], [PrepError.wrongType "chroot_mounts"]) := by
    unfold decodeMounts; rw [hs]
  refine ⟨?_, ?_, by simp⟩
  · unfold Prepare decodeConfig validate
    rw [hami]
    simp
  · unfold Prepare decodeConfig
    rw [hmounts]
    simp

/-- A configuration missing `ami_name` and binding `chroot_mounts` to a
string. -/
def badRawConfig : RawConfig :=
  [("source_ami", Value.str "foo"), ("chroot_mounts", Value.str "bad")]

theorem prepare_accumulates_errors_witness :
    PrepError.amiNameMissing ∈ Prepare badRawConfig ∧
    PrepError.wrongType "chroot_mounts" ∈ Prepare badRawConfig ∧
    PrepError.amiNameMissing ≠ PrepError.wrongType "chroot_mounts" :=
  prepare_accumulates_errors badRawConfig (by decide) ⟨"bad", by decide⟩

/-- Modelled from the spec: the `packer.Builder` capability interface.
Its definition is not under src/; of its methods only `Prepare` is
exercised by the sources present, so the capability is modelled by the
`Prepare` method a builder must supply. -/
structure PackerBuilder where
  prepare : RawConfig → List PrepError

/-- The amazon chroot `Builder` packaged as a `packer.Builder`
capability, as the registry's in-process builder loader would return
it. -/
def chrootBuilder : PackerBuilder :=
  { prepare := Prepare }

/-- C8: the amazon chroot Builder satisfies the `packer.Builder`
capability interface: a `PackerBuilder` value is formed from it, and its
`prepare` method is exactly the chroot `Prepare`. -/
theorem builder_implements_packer_builder :
    chrootBuilder.prepare = Prepare := rfl

end Packer.Chroot
